import Mathlib

/-!
# kongWrapper: layered configuration resolution around kong

A shallow embedding of `kongWrapper.go` (functions `Parse`, `fromFileEnding`,
`configFileFromENV`) together with the Go standard-library function `path.Ext`
that `fromFileEnding` calls.

The argument-grammar library (kong), the file decoders, the process argument
vector and the process environment are collaborators of the package.  They are
taken as parameters, collected in `World`.  Every call the package makes to a
collaborator is recorded in a trace, so that statements about which steps ran,
in which order and on which parser object can be made about the code.

Go strings are byte sequences; they are embedded as Lean strings.  The only
bytes the code inspects are the ASCII bytes of a dot and of a slash, which never
occur inside the UTF-8 encoding of another character, so scanning characters
and scanning bytes select the same suffix.
-/

namespace kongWrapper

/-! ## Go standard library: path.Ext -/

/-- The loop of Go's path.Ext,
`for i := len(path) - 1; i >= 0 && path[i] != '/'; i-- { if path[i] == '.' { return path[i:] } }; return ""`.
The second argument is the loop index plus one, so that it reaches zero exactly
when the Go index would become negative.  The index is always in range; the
`none` branch is never taken from `path.Ext`. -/
def path.Ext.loop (p : List Char) : Nat → List Char
  | 0 => []
  | i + 1 =>
    match p[i]? with
    | some c =>
      if c = '/' then []
      else if c = '.' then p.drop i
      else path.Ext.loop p i
    | none => []

/-- Go's path.Ext: the file name extension used by the path. -/
def path.Ext (p : String) : String :=
  ⟨path.Ext.loop p.data p.data.length⟩

/-! ## The extension as the specification words it -/

/-- The final slash-separated element of a path. -/
def lastElement (p : List Char) : List Char :=
  (p.splitOn '/').getLast?.getD []

/-- The suffix of a list starting at the last occurrence of `c`, empty when `c`
does not occur. -/
def suffixFromLast (c : Char) : List Char → List Char
  | [] => []
  | x :: xs =>
    if c ∈ xs then suffixFromLast c xs
    else if x = c then x :: xs
    else []

/-- The extension in the words of the specification: the suffix starting at the
last dot of the final slash-separated element, empty if there is none. -/
def extSpec (p : String) : String :=
  ⟨suffixFromLast '.' (lastElement p.data)⟩

/-! ## Collaborators -/

/-- The configuration loaders the package hands to kong.Configuration:
kong.JSON and kongyaml.Loader. -/
inductive Loader
  | JSON
  | YAML
deriving DecidableEq

/-- The options of a kong.New call: `none` for `kong.New(cli)`, and
`some (loader, path)` for `kong.New(cli, kong.Configuration(loader, path))`. -/
abbrev Options := Option (Loader × String)

/-- A parser object returned by kong.New (a `*kong.Kong`): its identity, the
number of the allocation that produced it, and the options it was built with. -/
structure Kong where
  id : Nat
  options : Options
deriving DecidableEq

/-- The calls the package makes, in the order they happen.  `fromFileEnding`
records that the package's own decoder selection was entered; the other three
are calls to collaborators. -/
inductive Event
  | kongNew (id : Nat) (options : Options)
  | kongParse (id : Nat) (args : List String)
  | lookupEnv (key : String)
  | fromFileEnding (configPath : String)
deriving DecidableEq

/-- Go `error` values seen by the package: an error returned by kong, or the
error the package builds itself with fmt.Errorf, identified by its message. -/
inductive Error (ε : Type)
  | lib (e : ε)
  | errorf (msg : String)
deriving DecidableEq

/-- Everything `Parse` consumes from outside the package, fixed during a call.

* `GetConfigPath` is the method of the `HasConfig` interface, read off the
  current value of the target struct.
* `newError t o` is the error of `kong.New` on a target in state `t` with
  options `o`, if it fails (malformed schema, unreadable or malformed file).
* `parse o args t` is the effect of `parser.Parse(args)` for a parser built
  with options `o` on a target in state `t`: the new state of the target and
  the error, if any.
* `osArgs0` and `osArgs1` are `os.Args[0]` and `os.Args[1:]`; the Go runtime
  always supplies the program name, so `os.Args[1:]` does not fail.
* `LookupEnv` is `os.LookupEnv`, `none` standing for an unset variable.

The files and the environment do not change during a call, and a parser
behaves as the options it was built with determine, so the collaborators are
functions of their arguments. -/
structure World (T ε : Type) where
  GetConfigPath : T → String
  newError : T → Options → Option ε
  parse : Options → List String → T → T × Option ε
  osArgs0 : String
  osArgs1 : List String
  LookupEnv : String → Option String

/-- The mutable part: the target struct `cli`, the allocation counter for
parser objects, and the trace of calls made so far. -/
structure State (T : Type) where
  cli : T
  nextId : Nat
  trace : List Event
deriving DecidableEq

/-- Append one event to the trace. -/
def State.log {T : Type} (s : State T) (e : Event) : State T :=
  { cli := s.cli, nextId := s.nextId, trace := s.trace ++ [e] }

/-- A state in which nothing has been called yet. -/
def State.init {T : Type} (cli : T) : State T :=
  { cli := cli, nextId := 0, trace := [] }

/-- The call `kong.New(cli, options...)`: returns a freshly allocated parser
object or the error of the library. -/
def kong.New {T ε : Type} (W : World T ε) (s : State T) (options : Options) :
    State T × Except (Error ε) Kong :=
  let s1 : State T :=
    { cli := s.cli, nextId := s.nextId + 1,
      trace := s.trace ++ [Event.kongNew s.nextId options] }
  match W.newError s.cli options with
  | some e => (s1, Except.error (Error.lib e))
  | none => (s1, Except.ok { id := s.nextId, options := options })

/-- The call `parser.Parse(args)`: fills the target the parser is bound to and
returns the error of the library, if any. -/
def Kong.Parse {T ε : Type} (W : World T ε) (parser : Kong) (args : List String)
    (s : State T) : State T × Option (Error ε) :=
  ({ cli := (W.parse parser.options args s.cli).1, nextId := s.nextId,
     trace := s.trace ++ [Event.kongParse parser.id args] },
   (W.parse parser.options args s.cli).2.map Error.lib)

/-! ## The package -/

/-- Source function configFileFromENV: looks for an env variable containing a
path to a config file. -/
def configFileFromENV {T ε : Type} (W : World T ε) (s : State T) (configEnv : String) :
    State T × String × Bool :=
  let s1 := s.log (Event.lookupEnv configEnv)
  match W.LookupEnv configEnv with
  | some val => if val ≠ "" then (s1, val, true) else (s1, "", false)
  | none => (s1, "", false)

/-- Source function fromFileEnding: creates a new kong parser based on file
ending. -/
def fromFileEnding {T ε : Type} (W : World T ε) (s : State T) (configPath : String) :
    State T × Except (Error ε) Kong :=
  let s1 := s.log (Event.fromFileEnding configPath)
  match path.Ext configPath with
  | ".json" => kong.New W s1 (some (Loader.JSON, configPath))
  | ".yaml" | ".yml" => kong.New W s1 (some (Loader.YAML, configPath))
  | _ => (s1, Except.error (Error.errorf ("unsupported config format: " ++ configPath)))

/-- Lines 38 to 45 of Parse: get the config path from the target and, if it is
empty, try the environment variable. -/
def Parse.configPath {T ε : Type} (W : World T ε) (s : State T) (configEnv : String) :
    State T × String :=
  let configPath := W.GetConfigPath s.cli
  if configPath = "" then
    match configFileFromENV W s configEnv with
    | (s1, envPath, true) => (s1, envPath)
    | (s1, _, false) => (s1, configPath)
  else (s, configPath)

/-- Source function Parse.  Returns the final state and the returned error
(`none` for nil). -/
def Parse {T ε : Type} (W : World T ε) (s : State T) (configEnv : String) :
    State T × Option (Error ε) :=
  match kong.New W s none with
  | (s1, Except.error err) => (s1, some err)
  | (s1, Except.ok parser) =>
    match Kong.Parse W parser W.osArgs1 s1 with
    | (s2, some err) => (s2, some err)
    | (s2, none) =>
      match Parse.configPath W s2 configEnv with
      | (s3, configPath) =>
        match (if configPath ≠ "" then fromFileEnding W s3 configPath
               else (s3, Except.ok parser)) with
        | (s4, Except.error err) => (s4, some err)
        | (s4, Except.ok parser2) => Kong.Parse W parser2 W.osArgs1 s4

/-! ## Derived observations -/

/-- The state of the target after pass 1, started on a target in state `cli`. -/
def afterPass1 {T ε : Type} (W : World T ε) (cli : T) : T :=
  (W.parse none W.osArgs1 cli).1

/-- The config path lines 38 to 45 of Parse compute on a target in state `cli`. -/
def resolvedPath {T ε : Type} (W : World T ε) (cli : T) (configEnv : String) : String :=
  (Parse.configPath W (State.init cli) configEnv).2

/-- The outcome of decoder selection and of the construction of the second
parser on a target in state `cli`: the options of the parser, or the error. -/
def selection {T ε : Type} (W : World T ε) (cli : T) (configPath : String) :
    Except (Error ε) Options :=
  match (fromFileEnding W (State.init cli) configPath).2 with
  | Except.ok k => Except.ok k.options
  | Except.error e => Except.error e

/-- The environment lookups lines 38 to 45 of Parse make on a target in state
`cli`: one when the target holds no config path, none otherwise. -/
def lookupEvents {T ε : Type} (W : World T ε) (cli : T) (configEnv : String) : List Event :=
  if W.GetConfigPath cli = "" then [Event.lookupEnv configEnv] else []

/-- A parse of an argument vector. -/
def Event.isParse : Event → Bool
  | Event.kongParse _ _ => true
  | _ => false

/-- A lookup of an environment variable. -/
def Event.isLookupEnv : Event → Bool
  | Event.lookupEnv _ => true
  | _ => false

/-- The construction of a parser wired to a configuration file. -/
def Event.isFileNew : Event → Bool
  | Event.kongNew _ (some _) => true
  | _ => false

/-- An entry into the decoder selection. -/
def Event.isFromFileEnding : Event → Bool
  | Event.fromFileEnding _ => true
  | _ => false

/-- The identities of the parser objects that parsed, in order. -/
def parseIds : List Event → List Nat
  | [] => []
  | Event.kongParse i _ :: es => i :: parseIds es
  | _ :: es => parseIds es

/-- The events of a trace that come after the first parse. -/
def afterFirstParse : List Event → List Event
  | [] => []
  | Event.kongParse _ _ :: es => es
  | _ :: es => afterFirstParse es

/-- Pass 2 ran on a parser object other than the one of pass 1, constructed
after pass 1: the trace holds two parses, by different objects, and the object
of the second was allocated after the first parse. -/
def secondParserFresh (evs : List Event) : Bool :=
  match parseIds evs with
  | [i, j] => i != j && (afterFirstParse evs).any (fun e =>
      match e with
      | Event.kongNew k _ => k == j
      | _ => false)
  | _ => false

/-! ## The contract of the parser collaborator -/

/-- Modelled from the spec: the value a parse leaves in one field of the target
(step 6 of the algorithm; kong itself is a dependency, not part of the
package).  A flag explicitly present on the command line wins, a flag absent
from it takes the value of the file if the file contains the key, and the
declared default otherwise. -/
def mergedValue {V : Type} (cliValue fileValue : Option V) (dflt : V) : V :=
  match cliValue with
  | some v => v
  | none =>
    match fileValue with
    | some v => v
    | none => dflt

/-- Modelled from the spec: how the fields of a target are read and what the
three sources hold for them.  `get t f` is the value of field `f` on a target
in state `t`, `dflt f` the default the schema declares, `cliValue args f` the
value of the flag when it is explicitly present in the argument vector, and
`fileValue l p f` the value of the key in the file at path `p` as decoded by
loader `l`, when the file contains it. -/
structure Schema (T F V : Type) where
  get : T → F → V
  dflt : F → V
  cliValue : List String → F → Option V
  fileValue : Loader → String → F → Option V

/-- The value the file of a parser holds for a field; a parser built without
the configuration option has no file. -/
def Schema.fileOf {T F V : Type} (M : Schema T F V) : Options → F → Option V
  | none, _ => none
  | some (l, p), f => M.fileValue l p f

/-- Modelled from the spec: the merge the parser collaborator performs (kong
is a dependency, its code is not part of the package).  Every successful parse
leaves in every field the merged value of command line, file and default. -/
def MergeContract {T ε F V : Type} (W : World T ε) (M : Schema T F V) : Prop :=
  ∀ (o : Options) (args : List String) (t : T), (W.parse o args t).2 = none →
    ∀ f : F, M.get (W.parse o args t).1 f
      = mergedValue (M.cliValue args f) (M.fileOf o f) (M.dflt f)

/-- Modelled from the spec: a parse applies defaults, file values and
command-line values cleanly (design notes; kong is a dependency, its code is
not part of the package).  What an earlier parse of the same argument vector
wrote to the target changes neither the outcome of a later parse nor the
outcome of a parser construction. -/
def Overwrites {T ε : Type} (W : World T ε) : Prop :=
  (∀ (o o2 : Options) (args : List String) (t : T),
      W.parse o2 args (W.parse o args t).1 = W.parse o2 args t) ∧
  (∀ (o o2 : Options) (args : List String) (t : T),
      W.newError (W.parse o args t).1 o2 = W.newError t o2)

/-! ## A small instance of the collaborators -/

/-- A target struct with a config-path flag and one ordinary flag. -/
structure DemoCLI where
  Config : String
  Port : String
deriving DecidableEq

/-- The fields of `DemoCLI`. -/
inductive DemoField
  | config
  | port
deriving DecidableEq

/-- The flag and file key of a field. -/
def DemoField.key : DemoField → String
  | DemoField.config => "config"
  | DemoField.port => "port"

/-- The value following the first occurrence of `--key` in an argument vector
read as flag and value pairs. -/
def demoFlag (key : String) : List String → Option String
  | a :: v :: rest => if a = "--" ++ key then some v else demoFlag key rest
  | _ => none

/-- An argument vector is accepted when it consists of pairs of a known flag
and a value. -/
def demoArgsOk : List String → Bool
  | [] => true
  | a :: _ :: rest => (a == "--config" || a == "--port") && demoArgsOk rest
  | _ => false

/-- The files of the instance: the keys each file holds, `none` for a file
whose content does not decode; any other path holds no keys. -/
def demoFile (path : String) : Option (List (String × String)) :=
  if path = "/etc/app/config.yaml" then some [("port", "8080")]
  else if path = "app.json" then some [("port", "9090")]
  else if path = "broken.json" then none
  else some []

/-- The schema of `DemoCLI`: the config path defaults to the empty string and
the port to 80. -/
def demoSchema : Schema DemoCLI DemoField String where
  get := fun t f =>
    match f with
    | DemoField.config => t.Config
    | DemoField.port => t.Port
  dflt := fun f =>
    match f with
    | DemoField.config => ""
    | DemoField.port => "80"
  cliValue := fun args f => demoFlag f.key args
  fileValue := fun _ p f => (demoFile p).bind (fun kvs => kvs.lookup f.key)

/-- Modelled from the spec: an instance of the collaborators for `DemoCLI`.
Parser construction fails on a file that does not decode, a parse fails on an
argument vector that is not accepted and then leaves the target as it was, and
a successful parse writes the merged value of every field. -/
def demoWorld (args : List String) (env : String → Option String) :
    World DemoCLI String where
  GetConfigPath := fun t => t.Config
  newError := fun _ o =>
    match o with
    | some (_, p) => if demoFile p = none then some "cannot decode file" else none
    | none => none
  parse := fun o as t =>
    if demoArgsOk as then
      ({ Config := mergedValue (demoSchema.cliValue as DemoField.config)
                     (demoSchema.fileOf o DemoField.config) (demoSchema.dflt DemoField.config),
         Port := mergedValue (demoSchema.cliValue as DemoField.port)
                     (demoSchema.fileOf o DemoField.port) (demoSchema.dflt DemoField.port) },
       none)
    else (t, some "unknown flag")
  osArgs0 := "app"
  osArgs1 := args
  LookupEnv := env

/-- An environment in which no variable is set. -/
def demoEnvUnset : String → Option String :=
  fun _ => none

/-- An environment in which APP_CONFIG names the YAML file of the instance. -/
def demoEnvYaml : String → Option String :=
  fun k => if k = "APP_CONFIG" then some "/etc/app/config.yaml" else none

/-- The target before anything was parsed. -/
def demoCLI : DemoCLI :=
  { Config := "", Port := "" }

/-! ## path.Ext computes the extension of the specification -/

theorem splitOnP_append_right {α : Type} (q : α → Bool) (a s : List α)
    (hs : ∀ x ∈ s, ¬ q x = true) :
    ∃ init last, a.splitOnP q = init ++ [last] ∧ (a ++ s).splitOnP q = init ++ [last ++ s] := by
  induction a with
  | nil =>
    exact ⟨[], [], by simp, by simpa using List.splitOnP_eq_single q s hs⟩
  | cons x a ih =>
    obtain ⟨init, last, h1, h2⟩ := ih
    by_cases hx : q x = true
    · exact ⟨[] :: init, last, by simp [hx, h1], by simp [hx, h2]⟩
    · cases init with
      | nil => exact ⟨[], x :: last, by simp [hx, h1], by simp [hx, h2]⟩
      | cons i init => exact ⟨(x :: i) :: init, last, by simp [hx, h1], by simp [hx, h2]⟩

theorem splitOnP_append_sep {α : Type} (q : α → Bool) (a s : List α) (sep : α)
    (hsep : q sep = true) :
    ∃ h t, (a ++ sep :: s).splitOnP q = h :: t ∧ t.getLast? = (s.splitOnP q).getLast? := by
  induction a with
  | nil => exact ⟨[], s.splitOnP q, by simp [hsep], rfl⟩
  | cons x a ih =>
    obtain ⟨h, t, h1, h2⟩ := ih
    have ht : t ≠ [] := by
      intro h0
      rw [h0] at h2
      have := List.splitOnP_ne_nil q s
      cases hh : s.splitOnP q with
      | nil => exact this hh
      | cons y ys => rw [hh] at h2; simp [List.getLast?_cons] at h2
    by_cases hx : q x = true
    · refine ⟨[], h :: t, by simp [hx, h1], ?_⟩
      rw [← h2]
      cases t with
      | nil => exact absurd rfl ht
      | cons y ys => simp
    · exact ⟨x :: h, t, by simp [hx, h1], h2⟩

theorem lastElement_append_slash (a s : List Char) :
    lastElement (a ++ '/' :: s) = lastElement s := by
  unfold lastElement List.splitOn
  obtain ⟨h, t, h1, h2⟩ := splitOnP_append_sep (fun x => x == '/') a s '/' (by simp)
  rw [h1, ← h2]
  have ht : t ≠ [] := by
    intro h0
    rw [h0] at h2
    cases hh : s.splitOnP (fun x => x == '/') with
    | nil => exact List.splitOnP_ne_nil _ s hh
    | cons y ys => rw [hh] at h2; simp [List.getLast?_cons] at h2
  cases t with
  | nil => exact absurd rfl ht
  | cons y ys => simp

theorem lastElement_append (a s : List Char) (hs : '/' ∉ s) :
    lastElement (a ++ s) = lastElement a ++ s := by
  unfold lastElement List.splitOn
  obtain ⟨init, last, h1, h2⟩ := splitOnP_append_right (fun x => x == '/') a s
    (by intro x hx hq; simp at hq; subst hq; exact hs hx)
  rw [h1, h2]
  simp

theorem lastElement_of_not_mem (s : List Char) (hs : '/' ∉ s) : lastElement s = s := by
  have := lastElement_append [] s hs
  simpa [lastElement] using this

theorem suffixFromLast_of_not_mem (c : Char) (s : List Char) (hs : c ∉ s) :
    suffixFromLast c s = [] := by
  cases s with
  | nil => rfl
  | cons x xs =>
    simp only [List.mem_cons, not_or] at hs
    simp [suffixFromLast, hs.2, Ne.symm hs.1]

theorem suffixFromLast_append (c : Char) (a s : List Char) (hs : c ∉ s) :
    suffixFromLast c (a ++ c :: s) = c :: s := by
  induction a with
  | nil => simp [suffixFromLast, hs]
  | cons x a ih => simp [suffixFromLast, ih]

theorem loop_eq (pre : List Char) :
    ∀ suf : List Char, '/' ∉ suf → '.' ∉ suf →
      path.Ext.loop (pre ++ suf) pre.length = suffixFromLast '.' (lastElement (pre ++ suf)) := by
  induction pre using List.reverseRecOn with
  | nil =>
    intro suf h1 h2
    simp [path.Ext.loop, lastElement_of_not_mem suf h1, suffixFromLast_of_not_mem '.' suf h2]
  | append_singleton pre c ih =>
    intro suf h1 h2
    have hget : (pre ++ [c] ++ suf)[pre.length]? = some c := by
      rw [List.append_assoc, List.getElem?_append_right (le_refl _)]
      simp
    rw [List.length_append, List.length_singleton, path.Ext.loop, hget]
    simp only
    by_cases hc1 : c = '/'
    · subst hc1
      simp only [if_true, List.append_assoc, List.singleton_append]
      rw [lastElement_append_slash, lastElement_of_not_mem suf h1,
        suffixFromLast_of_not_mem '.' suf h2]
    · by_cases hc2 : c = '.'
      · subst hc2
        simp only [hc1, if_false, if_true, List.append_assoc, List.singleton_append]
        rw [List.drop_left, lastElement_append pre ('.' :: suf) (by simp [h1]),
          suffixFromLast_append '.' _ suf h2]
      · simp only [hc1, hc2, if_false, List.append_assoc, List.singleton_append]
        exact ih (c :: suf) (by simp [h1, Ne.symm hc1]) (by simp [h2, Ne.symm hc2])

theorem Ext_eq_extSpec (p : String) : path.Ext p = extSpec p := by
  unfold path.Ext extSpec
  have := loop_eq p.data [] (by simp) (by simp)
  simp only [List.append_nil] at this
  rw [this]


theorem loop_suffix (p : List Char) (i : Nat) : ∃ pre, p = pre ++ path.Ext.loop p i := by
  induction i with
  | zero => exact ⟨p, by simp [path.Ext.loop]⟩
  | succ i ih =>
    unfold path.Ext.loop
    cases h : p[i]? with
    | none => exact ⟨p, by simp⟩
    | some c =>
      by_cases hc1 : c = '/'
      · exact ⟨p, by simp [hc1]⟩
      · by_cases hc2 : c = '.'
        · exact ⟨p.take i, by simp [hc1, hc2]⟩
        · simpa [hc1, hc2] using ih

/-- The extension is a suffix of the path. -/
theorem Ext_suffix (p : String) : ∃ pre : String, p = pre ++ path.Ext p := by
  obtain ⟨pre, h⟩ := loop_suffix p.data p.data.length
  refine ⟨⟨pre⟩, ?_⟩
  apply String.ext
  rw [String.data_append]
  exact h

/-! ## The steps of Parse, one by one -/

section steps

variable {T ε : Type}

theorem configFileFromENV_fst (W : World T ε) (s : State T) (configEnv : String) :
    (configFileFromENV W s configEnv).1 = s.log (Event.lookupEnv configEnv) := by
  unfold configFileFromENV
  cases W.LookupEnv configEnv with
  | none => rfl
  | some v => by_cases h : v = "" <;> simp [h]

theorem configFileFromENV_snd (W : World T ε) (s : State T) (configEnv : String) :
    (configFileFromENV W s configEnv).2 =
      match W.LookupEnv configEnv with
      | some val => if val ≠ "" then (val, true) else ("", false)
      | none => ("", false) := by
  unfold configFileFromENV
  cases W.LookupEnv configEnv with
  | none => rfl
  | some v => by_cases h : v = "" <;> simp [h]

theorem configPath_fst (W : World T ε) (s : State T) (configEnv : String) :
    (Parse.configPath W s configEnv).1 =
      if W.GetConfigPath s.cli = "" then s.log (Event.lookupEnv configEnv) else s := by
  unfold Parse.configPath
  by_cases h : W.GetConfigPath s.cli = ""
  · simp only [h, if_true]
    have h1 := configFileFromENV_fst W s configEnv
    split <;> simp_all
  · simp [h]

theorem configPath_snd (W : World T ε) (s : State T) (configEnv : String) :
    (Parse.configPath W s configEnv).2 =
      if W.GetConfigPath s.cli = "" then
        match W.LookupEnv configEnv with
        | some val => val
        | none => ""
      else W.GetConfigPath s.cli := by
  unfold Parse.configPath
  by_cases h : W.GetConfigPath s.cli = ""
  · simp only [h, if_true]
    have h1 := configFileFromENV_snd W s configEnv
    cases hv : W.LookupEnv configEnv with
    | none => simp [hv] at h1; split <;> simp_all
    | some v =>
      by_cases hv2 : v = ""
      · simp [hv, hv2] at h1; split <;> simp_all
      · simp [hv, hv2] at h1; split <;> simp_all
  · simp [h]

theorem resolvedPath_eq (W : World T ε) (cli : T) (configEnv : String) :
    resolvedPath W cli configEnv =
      if W.GetConfigPath cli = "" then
        match W.LookupEnv configEnv with
        | some val => val
        | none => ""
      else W.GetConfigPath cli := by
  unfold resolvedPath
  rw [configPath_snd]
  rfl

theorem configPath_eq (W : World T ε) (s : State T) (configEnv : String) :
    Parse.configPath W s configEnv =
      (if W.GetConfigPath s.cli = "" then s.log (Event.lookupEnv configEnv) else s,
       resolvedPath W s.cli configEnv) := by
  apply Prod.ext
  · exact configPath_fst W s configEnv
  · rw [configPath_snd, resolvedPath_eq]

theorem fromFileEnding_json (W : World T ε) (s : State T) (p : String)
    (h : path.Ext p = ".json") :
    fromFileEnding W s p
      = kong.New W (s.log (Event.fromFileEnding p)) (some (Loader.JSON, p)) := by
  unfold fromFileEnding
  simp only [h]

theorem fromFileEnding_yaml (W : World T ε) (s : State T) (p : String)
    (h : path.Ext p = ".yaml" ∨ path.Ext p = ".yml") :
    fromFileEnding W s p
      = kong.New W (s.log (Event.fromFileEnding p)) (some (Loader.YAML, p)) := by
  unfold fromFileEnding
  rcases h with h | h <;> simp only [h]

theorem fromFileEnding_other (W : World T ε) (s : State T) (p : String)
    (h1 : path.Ext p ≠ ".json") (h2 : path.Ext p ≠ ".yaml") (h3 : path.Ext p ≠ ".yml") :
    fromFileEnding W s p
      = (s.log (Event.fromFileEnding p),
         Except.error (Error.errorf ("unsupported config format: " ++ p))) := by
  unfold fromFileEnding
  split <;> simp_all

theorem Parse_new_fails (W : World T ε) (s : State T) (configEnv : String) (e : ε)
    (h0 : W.newError s.cli none = some e) :
    Parse W s configEnv
      = ({ cli := s.cli, nextId := s.nextId + 1,
           trace := s.trace ++ [Event.kongNew s.nextId none] }, some (Error.lib e)) := by
  simp [Parse, kong.New, h0]

theorem Parse_pass1_fails (W : World T ε) (s : State T) (configEnv : String) (e : ε)
    (h0 : W.newError s.cli none = none)
    (h1 : (W.parse none W.osArgs1 s.cli).2 = some e) :
    Parse W s configEnv
      = ({ cli := afterPass1 W s.cli, nextId := s.nextId + 1,
           trace := s.trace ++ [Event.kongNew s.nextId none,
                                Event.kongParse s.nextId W.osArgs1] },
         some (Error.lib e)) := by
  simp [Parse, kong.New, Kong.Parse, h0, h1, afterPass1]


theorem Parse_no_path (W : World T ε) (s : State T) (configEnv : String)
    (h0 : W.newError s.cli none = none)
    (h1 : (W.parse none W.osArgs1 s.cli).2 = none)
    (hp : resolvedPath W (afterPass1 W s.cli) configEnv = "") :
    Parse W s configEnv
      = ({ cli := (W.parse none W.osArgs1 (afterPass1 W s.cli)).1, nextId := s.nextId + 1,
           trace := s.trace ++ [Event.kongNew s.nextId none,
                                Event.kongParse s.nextId W.osArgs1,
                                Event.lookupEnv configEnv,
                                Event.kongParse s.nextId W.osArgs1] },
         (W.parse none W.osArgs1 (afterPass1 W s.cli)).2.map Error.lib) := by
  have hg : W.GetConfigPath (afterPass1 W s.cli) = "" := by
    rw [resolvedPath_eq] at hp
    by_contra hne
    simp [hne] at hp
  unfold afterPass1 at hp hg
  simp [Parse, kong.New, Kong.Parse, h0, h1, afterPass1, configPath_eq, hp, hg, State.log]

theorem Parse_unsupported (W : World T ε) (s : State T) (configEnv : String)
    (h0 : W.newError s.cli none = none)
    (h1 : (W.parse none W.osArgs1 s.cli).2 = none)
    (hp : resolvedPath W (afterPass1 W s.cli) configEnv ≠ "")
    (e1 : path.Ext (resolvedPath W (afterPass1 W s.cli) configEnv) ≠ ".json")
    (e2 : path.Ext (resolvedPath W (afterPass1 W s.cli) configEnv) ≠ ".yaml")
    (e3 : path.Ext (resolvedPath W (afterPass1 W s.cli) configEnv) ≠ ".yml") :
    Parse W s configEnv
      = ({ cli := afterPass1 W s.cli, nextId := s.nextId + 1,
           trace := s.trace ++ ([Event.kongNew s.nextId none,
                                 Event.kongParse s.nextId W.osArgs1]
               ++ lookupEvents W (afterPass1 W s.cli) configEnv
               ++ [Event.fromFileEnding (resolvedPath W (afterPass1 W s.cli) configEnv)]) },
         some (Error.errorf ("unsupported config format: "
            ++ resolvedPath W (afterPass1 W s.cli) configEnv))) := by
  unfold afterPass1 at hp e1 e2 e3
  by_cases hg : W.GetConfigPath (W.parse none W.osArgs1 s.cli).1 = "" <;>
    simp [Parse, kong.New, Kong.Parse, h0, h1, afterPass1, configPath_eq, hp, hg, State.log,
      fromFileEnding_other, e1, e2, e3, lookupEvents]

/-- The second construction fails; the loader `l` is the one fromFileEnding
selects for the resolved path. -/
theorem Parse_new2_fails (W : World T ε) (s : State T) (configEnv : String) (l : Loader)
    (e : ε)
    (h0 : W.newError s.cli none = none)
    (h1 : (W.parse none W.osArgs1 s.cli).2 = none)
    (hp : resolvedPath W (afterPass1 W s.cli) configEnv ≠ "")
    (hl : (path.Ext (resolvedPath W (afterPass1 W s.cli) configEnv) = ".json" ∧ l = Loader.JSON)
      ∨ ((path.Ext (resolvedPath W (afterPass1 W s.cli) configEnv) = ".yaml"
          ∨ path.Ext (resolvedPath W (afterPass1 W s.cli) configEnv) = ".yml") ∧ l = Loader.YAML))
    (h2 : W.newError (afterPass1 W s.cli)
            (some (l, resolvedPath W (afterPass1 W s.cli) configEnv)) = some e) :
    Parse W s configEnv
      = ({ cli := afterPass1 W s.cli, nextId := s.nextId + 2,
           trace := s.trace ++ ([Event.kongNew s.nextId none,
                                 Event.kongParse s.nextId W.osArgs1]
               ++ lookupEvents W (afterPass1 W s.cli) configEnv
               ++ [Event.fromFileEnding (resolvedPath W (afterPass1 W s.cli) configEnv),
                   Event.kongNew (s.nextId + 1)
                     (some (l, resolvedPath W (afterPass1 W s.cli) configEnv))]) },
         some (Error.lib e)) := by
  unfold afterPass1 at hp hl h2
  by_cases hg : W.GetConfigPath (W.parse none W.osArgs1 s.cli).1 = "" <;>
  rcases hl with ⟨hx, rfl⟩ | ⟨hx, rfl⟩ <;>
    simp [Parse, kong.New, Kong.Parse, h0, h1, afterPass1, configPath_eq, hp, hg, State.log,
      fromFileEnding_json, fromFileEnding_yaml, hx, lookupEvents, h2]

theorem Parse_pass2 (W : World T ε) (s : State T) (configEnv : String) (l : Loader)
    (h0 : W.newError s.cli none = none)
    (h1 : (W.parse none W.osArgs1 s.cli).2 = none)
    (hp : resolvedPath W (afterPass1 W s.cli) configEnv ≠ "")
    (hl : (path.Ext (resolvedPath W (afterPass1 W s.cli) configEnv) = ".json" ∧ l = Loader.JSON)
      ∨ ((path.Ext (resolvedPath W (afterPass1 W s.cli) configEnv) = ".yaml"
          ∨ path.Ext (resolvedPath W (afterPass1 W s.cli) configEnv) = ".yml") ∧ l = Loader.YAML))
    (h2 : W.newError (afterPass1 W s.cli)
            (some (l, resolvedPath W (afterPass1 W s.cli) configEnv)) = none) :
    Parse W s configEnv
      = ({ cli := (W.parse (some (l, resolvedPath W (afterPass1 W s.cli) configEnv))
                    W.osArgs1 (afterPass1 W s.cli)).1,
           nextId := s.nextId + 2,
           trace := s.trace ++ ([Event.kongNew s.nextId none,
                                 Event.kongParse s.nextId W.osArgs1]
               ++ lookupEvents W (afterPass1 W s.cli) configEnv
               ++ [Event.fromFileEnding (resolvedPath W (afterPass1 W s.cli) configEnv),
                   Event.kongNew (s.nextId + 1)
                     (some (l, resolvedPath W (afterPass1 W s.cli) configEnv)),
                   Event.kongParse (s.nextId + 1) W.osArgs1]) },
         (W.parse (some (l, resolvedPath W (afterPass1 W s.cli) configEnv))
                    W.osArgs1 (afterPass1 W s.cli)).2.map Error.lib) := by
  unfold afterPass1 at hp hl h2
  by_cases hg : W.GetConfigPath (W.parse none W.osArgs1 s.cli).1 = "" <;>
  rcases hl with ⟨hx, rfl⟩ | ⟨hx, rfl⟩ <;>
    simp [Parse, kong.New, Kong.Parse, h0, h1, afterPass1, configPath_eq, hp, hg, State.log,
      fromFileEnding_json, fromFileEnding_yaml, hx, lookupEvents, h2]

/-- Every run of Parse is one of six: the first construction fails, pass 1
fails, no config path is resolved, the extension is not supported, the second
construction fails, or pass 2 runs on the second parser. -/
theorem Parse_cases (W : World T ε) (s : State T) (configEnv : String) :
    (∃ e, W.newError s.cli none = some e ∧
      Parse W s configEnv
        = ({ cli := s.cli, nextId := s.nextId + 1,
             trace := s.trace ++ [Event.kongNew s.nextId none] }, some (Error.lib e))) ∨
    (∃ e, W.newError s.cli none = none ∧ (W.parse none W.osArgs1 s.cli).2 = some e ∧
      Parse W s configEnv
        = ({ cli := afterPass1 W s.cli, nextId := s.nextId + 1,
             trace := s.trace ++ [Event.kongNew s.nextId none,
                                  Event.kongParse s.nextId W.osArgs1] },
           some (Error.lib e))) ∨
    (W.newError s.cli none = none ∧ (W.parse none W.osArgs1 s.cli).2 = none ∧
      W.GetConfigPath (afterPass1 W s.cli) = "" ∧
      resolvedPath W (afterPass1 W s.cli) configEnv = "" ∧
      Parse W s configEnv
        = ({ cli := (W.parse none W.osArgs1 (afterPass1 W s.cli)).1, nextId := s.nextId + 1,
             trace := s.trace ++ [Event.kongNew s.nextId none,
                                  Event.kongParse s.nextId W.osArgs1,
                                  Event.lookupEnv configEnv,
                                  Event.kongParse s.nextId W.osArgs1] },
           (W.parse none W.osArgs1 (afterPass1 W s.cli)).2.map Error.lib)) ∨
    (W.newError s.cli none = none ∧ (W.parse none W.osArgs1 s.cli).2 = none ∧
      resolvedPath W (afterPass1 W s.cli) configEnv ≠ "" ∧
      path.Ext (resolvedPath W (afterPass1 W s.cli) configEnv) ≠ ".json" ∧
      path.Ext (resolvedPath W (afterPass1 W s.cli) configEnv) ≠ ".yaml" ∧
      path.Ext (resolvedPath W (afterPass1 W s.cli) configEnv) ≠ ".yml" ∧
      Parse W s configEnv
        = ({ cli := afterPass1 W s.cli, nextId := s.nextId + 1,
             trace := s.trace ++ ([Event.kongNew s.nextId none,
                                   Event.kongParse s.nextId W.osArgs1]
                 ++ lookupEvents W (afterPass1 W s.cli) configEnv
                 ++ [Event.fromFileEnding (resolvedPath W (afterPass1 W s.cli) configEnv)]) },
           some (Error.errorf ("unsupported config format: "
              ++ resolvedPath W (afterPass1 W s.cli) configEnv)))) ∨
    (∃ l e, W.newError s.cli none = none ∧ (W.parse none W.osArgs1 s.cli).2 = none ∧
      resolvedPath W (afterPass1 W s.cli) configEnv ≠ "" ∧
      ((path.Ext (resolvedPath W (afterPass1 W s.cli) configEnv) = ".json" ∧ l = Loader.JSON)
        ∨ ((path.Ext (resolvedPath W (afterPass1 W s.cli) configEnv) = ".yaml"
          ∨ path.Ext (resolvedPath W (afterPass1 W s.cli) configEnv) = ".yml")
            ∧ l = Loader.YAML)) ∧
      W.newError (afterPass1 W s.cli)
            (some (l, resolvedPath W (afterPass1 W s.cli) configEnv)) = some e ∧
      Parse W s configEnv
        = ({ cli := afterPass1 W s.cli, nextId := s.nextId + 2,
             trace := s.trace ++ ([Event.kongNew s.nextId none,
                                   Event.kongParse s.nextId W.osArgs1]
                 ++ lookupEvents W (afterPass1 W s.cli) configEnv
                 ++ [Event.fromFileEnding (resolvedPath W (afterPass1 W s.cli) configEnv),
                     Event.kongNew (s.nextId + 1)
                       (some (l, resolvedPath W (afterPass1 W s.cli) configEnv))]) },
           some (Error.lib e))) ∨
    (∃ l, W.newError s.cli none = none ∧ (W.parse none W.osArgs1 s.cli).2 = none ∧
      resolvedPath W (afterPass1 W s.cli) configEnv ≠ "" ∧
      ((path.Ext (resolvedPath W (afterPass1 W s.cli) configEnv) = ".json" ∧ l = Loader.JSON)
        ∨ ((path.Ext (resolvedPath W (afterPass1 W s.cli) configEnv) = ".yaml"
          ∨ path.Ext (resolvedPath W (afterPass1 W s.cli) configEnv) = ".yml")
            ∧ l = Loader.YAML)) ∧
      W.newError (afterPass1 W s.cli)
            (some (l, resolvedPath W (afterPass1 W s.cli) configEnv)) = none ∧
      Parse W s configEnv
        = ({ cli := (W.parse (some (l, resolvedPath W (afterPass1 W s.cli) configEnv))
                      W.osArgs1 (afterPass1 W s.cli)).1,
             nextId := s.nextId + 2,
             trace := s.trace ++ ([Event.kongNew s.nextId none,
                                   Event.kongParse s.nextId W.osArgs1]
                 ++ lookupEvents W (afterPass1 W s.cli) configEnv
                 ++ [Event.fromFileEnding (resolvedPath W (afterPass1 W s.cli) configEnv),
                     Event.kongNew (s.nextId + 1)
                       (some (l, resolvedPath W (afterPass1 W s.cli) configEnv)),
                     Event.kongParse (s.nextId + 1) W.osArgs1]) },
           (W.parse (some (l, resolvedPath W (afterPass1 W s.cli) configEnv))
                      W.osArgs1 (afterPass1 W s.cli)).2.map Error.lib)) := by
  cases h0 : W.newError s.cli none with
  | some e => exact Or.inl ⟨e, rfl, Parse_new_fails W s configEnv e h0⟩
  | none =>
    right
    cases h1 : (W.parse none W.osArgs1 s.cli).2 with
    | some e => exact Or.inl ⟨e, rfl, rfl, Parse_pass1_fails W s configEnv e h0 h1⟩
    | none =>
      right
      by_cases hp : resolvedPath W (afterPass1 W s.cli) configEnv = ""
      · have hg : W.GetConfigPath (afterPass1 W s.cli) = "" := by
          have hp2 := hp
          rw [resolvedPath_eq] at hp2
          by_contra hne
          simp [hne] at hp2
        exact Or.inl ⟨rfl, rfl, hg, hp, Parse_no_path W s configEnv h0 h1 hp⟩
      · right
        by_cases e1 : path.Ext (resolvedPath W (afterPass1 W s.cli) configEnv) = ".json"
        · right
          cases h2 : W.newError (afterPass1 W s.cli)
              (some (Loader.JSON, resolvedPath W (afterPass1 W s.cli) configEnv)) with
          | some e =>
            exact Or.inl ⟨Loader.JSON, e, rfl, rfl, hp, Or.inl ⟨e1, rfl⟩, h2,
              Parse_new2_fails W s configEnv Loader.JSON e h0 h1 hp (Or.inl ⟨e1, rfl⟩) h2⟩
          | none =>
            exact Or.inr ⟨Loader.JSON, rfl, rfl, hp, Or.inl ⟨e1, rfl⟩, h2,
              Parse_pass2 W s configEnv Loader.JSON h0 h1 hp (Or.inl ⟨e1, rfl⟩) h2⟩
        · by_cases e2 : path.Ext (resolvedPath W (afterPass1 W s.cli) configEnv) = ".yaml"
              ∨ path.Ext (resolvedPath W (afterPass1 W s.cli) configEnv) = ".yml"
          · right
            cases h2 : W.newError (afterPass1 W s.cli)
                (some (Loader.YAML, resolvedPath W (afterPass1 W s.cli) configEnv)) with
            | some e =>
              exact Or.inl ⟨Loader.YAML, e, rfl, rfl, hp, Or.inr ⟨e2, rfl⟩, h2,
                Parse_new2_fails W s configEnv Loader.YAML e h0 h1 hp (Or.inr ⟨e2, rfl⟩) h2⟩
            | none =>
              exact Or.inr ⟨Loader.YAML, rfl, rfl, hp, Or.inr ⟨e2, rfl⟩, h2,
                Parse_pass2 W s configEnv Loader.YAML h0 h1 hp (Or.inr ⟨e2, rfl⟩) h2⟩
          · left
            have e2a : path.Ext (resolvedPath W (afterPass1 W s.cli) configEnv) ≠ ".yaml" :=
              fun h => e2 (Or.inl h)
            have e2b : path.Ext (resolvedPath W (afterPass1 W s.cli) configEnv) ≠ ".yml" :=
              fun h => e2 (Or.inr h)
            exact ⟨rfl, rfl, hp, e1, e2a, e2b,
              Parse_unsupported W s configEnv h0 h1 hp e1 e2a e2b⟩

theorem selection_json (W : World T ε) (cli : T) (p : String) (h : path.Ext p = ".json") :
    selection W cli p =
      match W.newError cli (some (Loader.JSON, p)) with
      | some e => Except.error (Error.lib e)
      | none => Except.ok (some (Loader.JSON, p)) := by
  unfold selection
  rw [fromFileEnding_json W _ p h]
  cases h0 : W.newError cli (some (Loader.JSON, p)) <;>
    simp [kong.New, State.log, State.init, h0]

theorem selection_yaml (W : World T ε) (cli : T) (p : String)
    (h : path.Ext p = ".yaml" ∨ path.Ext p = ".yml") :
    selection W cli p =
      match W.newError cli (some (Loader.YAML, p)) with
      | some e => Except.error (Error.lib e)
      | none => Except.ok (some (Loader.YAML, p)) := by
  unfold selection
  rw [fromFileEnding_yaml W _ p h]
  cases h0 : W.newError cli (some (Loader.YAML, p)) <;>
    simp [kong.New, State.log, State.init, h0]

theorem selection_other (W : World T ε) (cli : T) (p : String)
    (h1 : path.Ext p ≠ ".json") (h2 : path.Ext p ≠ ".yaml") (h3 : path.Ext p ≠ ".yml") :
    selection W cli p
      = Except.error (Error.errorf ("unsupported config format: " ++ p)) := by
  unfold selection
  rw [fromFileEnding_other W _ p h1 h2 h3]

theorem selection_loader (W : World T ε) (cli : T) (p : String) (l : Loader)
    (hl : (path.Ext p = ".json" ∧ l = Loader.JSON)
      ∨ ((path.Ext p = ".yaml" ∨ path.Ext p = ".yml") ∧ l = Loader.YAML)) :
    selection W cli p =
      match W.newError cli (some (l, p)) with
      | some e => Except.error (Error.lib e)
      | none => Except.ok (some (l, p)) := by
  rcases hl with ⟨h, rfl⟩ | ⟨h, rfl⟩
  · exact selection_json W cli p h
  · exact selection_yaml W cli p h

/-- The initial state of the target enters Parse only through the outcome of
the first construction and the outcome of pass 1. -/
theorem Parse_congr (W : World T ε) (s s2 : State T) (configEnv : String)
    (hN : W.newError s2.cli none = W.newError s.cli none)
    (hP : W.parse none W.osArgs1 s2.cli = W.parse none W.osArgs1 s.cli) :
    (Parse W s2 configEnv).2 = (Parse W s configEnv).2 ∧
    (W.newError s.cli none = none →
      (Parse W s2 configEnv).1.cli = (Parse W s configEnv).1.cli) := by
  have hc : afterPass1 W s2.cli = afterPass1 W s.cli := by
    unfold afterPass1
    rw [hP]
  rcases Parse_cases W s configEnv with ⟨e, h0, h⟩ | ⟨e, h0, h1, h⟩ | ⟨h0, h1, hg, hp, h⟩ |
    ⟨h0, h1, hp, e1, e2, e3, h⟩ | ⟨l, e, h0, h1, hp, hl, h2, h⟩ | ⟨l, h0, h1, hp, hl, h2, h⟩
  · rw [h, Parse_new_fails W s2 configEnv e (by rw [hN]; exact h0)]
    simp [h0]
  · rw [h, Parse_pass1_fails W s2 configEnv e (by rw [hN]; exact h0) (by rw [hP]; exact h1)]
    simp [hc]
  · rw [h, Parse_no_path W s2 configEnv (by rw [hN]; exact h0) (by rw [hP]; exact h1)
      (by rw [hc]; exact hp)]
    simp [hc]
  · rw [h, Parse_unsupported W s2 configEnv (by rw [hN]; exact h0) (by rw [hP]; exact h1)
      (by rw [hc]; exact hp) (by rw [hc]; exact e1) (by rw [hc]; exact e2)
      (by rw [hc]; exact e3)]
    simp [hc]
  · rw [h, Parse_new2_fails W s2 configEnv l e (by rw [hN]; exact h0) (by rw [hP]; exact h1)
      (by rw [hc]; exact hp) (by rw [hc]; exact hl) (by rw [hc]; exact h2)]
    simp [hc]
  · rw [h, Parse_pass2 W s2 configEnv l (by rw [hN]; exact h0) (by rw [hP]; exact h1)
      (by rw [hc]; exact hp) (by rw [hc]; exact hl) (by rw [hc]; exact h2)]
    simp [hc]

end steps

/-! ## The small instance meets the contracts -/

theorem demoWorld_merges (args : List String) (env : String → Option String) :
    MergeContract (demoWorld args env) demoSchema := by
  intro o as t h f
  by_cases hok : demoArgsOk as = true
  · cases f <;> simp [demoWorld, hok, demoSchema]
  · simp [demoWorld, hok] at h

theorem demoWorld_overwrites (args : List String) (env : String → Option String) :
    Overwrites (demoWorld args env) := by
  constructor
  · intro o o2 as t
    by_cases hok : demoArgsOk as = true <;> simp [demoWorld, hok]
  · intro o o2 as t
    rfl

/-! ## The claims -/

/-- C1: config-path precedence in Parse.  configFileFromENV returns the value
of the variable and true exactly when the variable is set to a non-empty
string, and the empty string and false in every other case.  The config path
computed after pass 1 is the value of GetConfigPath whenever that is non-empty,
whatever the environment holds, and then the environment is not consulted;
otherwise it is the value of the variable when that is set and non-empty, and
empty otherwise.  Parse hands exactly this path, when it is non-empty, to the
decoder selection, and looks the variable up exactly when pass 1 succeeded and
GetConfigPath is empty. -/
theorem C1_config_path_precedence {T ε : Type} (W : World T ε) (s : State T)
    (configEnv : String) :
    (∀ v : String, (configFileFromENV W s configEnv).2 = (v, true)
        ↔ (W.LookupEnv configEnv = some v ∧ v ≠ "")) ∧
    ((configFileFromENV W s configEnv).2 = ("", false)
        ↔ ¬ ∃ v, W.LookupEnv configEnv = some v ∧ v ≠ "") ∧
    (W.GetConfigPath s.cli ≠ "" →
        Parse.configPath W s configEnv = (s, W.GetConfigPath s.cli)) ∧
    (W.GetConfigPath s.cli = "" → ∀ v, W.LookupEnv configEnv = some v → v ≠ "" →
        (Parse.configPath W s configEnv).2 = v) ∧
    (W.GetConfigPath s.cli = "" → (¬ ∃ v, W.LookupEnv configEnv = some v ∧ v ≠ "") →
        (Parse.configPath W s configEnv).2 = "") ∧
    (Event.lookupEnv configEnv ∈ (Parse.configPath W s configEnv).1.trace.drop s.trace.length
        ↔ W.GetConfigPath s.cli = "") ∧
    (Parse.configPath W s configEnv).2 = resolvedPath W s.cli configEnv ∧
    (∀ p : String,
        Event.fromFileEnding p ∈ (Parse W s configEnv).1.trace.drop s.trace.length
        ↔ (W.newError s.cli none = none ∧ (W.parse none W.osArgs1 s.cli).2 = none ∧
            p ≠ "" ∧ p = resolvedPath W (afterPass1 W s.cli) configEnv)) ∧
    (∀ k : String,
        Event.lookupEnv k ∈ (Parse W s configEnv).1.trace.drop s.trace.length
        ↔ (W.newError s.cli none = none ∧ (W.parse none W.osArgs1 s.cli).2 = none ∧
            W.GetConfigPath (afterPass1 W s.cli) = "" ∧ k = configEnv)) := by
  refine ⟨?_, ?_, ?_, ?_, ?_, ?_, ?_, ?_, ?_⟩
  · intro v
    rw [configFileFromENV_snd]
    cases hv : W.LookupEnv configEnv with
    | none => simp
    | some w =>
      by_cases hw : w = ""
      · subst hw
        simp
        intro h1
        exact h1.symm
      · simp only [ne_eq, hw, not_false_eq_true, if_true, Prod.mk.injEq, and_true,
          Option.some.injEq]
        constructor
        · intro h
          subst h
          exact ⟨rfl, hw⟩
        · intro h
          exact h.1
  · rw [configFileFromENV_snd]
    cases hv : W.LookupEnv configEnv with
    | none => simp
    | some w =>
      by_cases hw : w = ""
      · subst hw
        simp
      · simp [hw]
  · intro h
    rw [configPath_eq]
    simp [h, resolvedPath_eq]
  · intro h v hv hne
    rw [configPath_snd]
    simp [h, hv]
  · intro h hno
    rw [configPath_snd]
    simp only [h, if_true]
    cases hv : W.LookupEnv configEnv with
    | none => rfl
    | some w =>
      by_contra hw
      exact hno ⟨w, hv, hw⟩
  · rw [configPath_fst]
    by_cases h : W.GetConfigPath s.cli = ""
    · simp [h, State.log]
    · simp [h]
  · rw [configPath_eq]
  · intro p
    rcases Parse_cases W s configEnv with ⟨e, h0, h⟩ | ⟨e, h0, h1, h⟩ | ⟨h0, h1, hg, hp, h⟩ |
      ⟨h0, h1, hp, e1, e2, e3, h⟩ | ⟨l, e, h0, h1, hp, hl, h2, h⟩ | ⟨l, h0, h1, hp, hl, h2, h⟩
    · simp [h, h0]
    · simp [h, h0, h1]
    · simp [h, h0, h1, hp]
    · simp only [h, List.drop_left, h0, h1, true_and]
      by_cases hg : W.GetConfigPath (afterPass1 W s.cli) = ""
      · simp [lookupEvents, hg]
        intro hh
        subst hh
        exact hp
      · simp [lookupEvents, hg]
        intro hh
        subst hh
        exact hp
    · simp only [h, List.drop_left, h0, h1, true_and]
      by_cases hg : W.GetConfigPath (afterPass1 W s.cli) = ""
      · simp [lookupEvents, hg]
        intro hh
        subst hh
        exact hp
      · simp [lookupEvents, hg]
        intro hh
        subst hh
        exact hp
    · simp only [h, List.drop_left, h0, h1, true_and]
      by_cases hg : W.GetConfigPath (afterPass1 W s.cli) = ""
      · simp [lookupEvents, hg]
        intro hh
        subst hh
        exact hp
      · simp [lookupEvents, hg]
        intro hh
        subst hh
        exact hp
  · intro k
    rcases Parse_cases W s configEnv with ⟨e, h0, h⟩ | ⟨e, h0, h1, h⟩ | ⟨h0, h1, hg, hp, h⟩ |
      ⟨h0, h1, hp, e1, e2, e3, h⟩ | ⟨l, e, h0, h1, hp, hl, h2, h⟩ | ⟨l, h0, h1, hp, hl, h2, h⟩
    · simp [h, h0]
    · simp [h, h0, h1]
    · simp [h, h0, h1, hg]
    · simp only [h, List.drop_left, h0, h1, true_and]
      by_cases hg : W.GetConfigPath (afterPass1 W s.cli) = "" <;> simp [lookupEvents, hg]
    · simp only [h, List.drop_left, h0, h1, true_and]
      by_cases hg : W.GetConfigPath (afterPass1 W s.cli) = "" <;> simp [lookupEvents, hg]
    · simp only [h, List.drop_left, h0, h1, true_and]
      by_cases hg : W.GetConfigPath (afterPass1 W s.cli) = "" <;> simp [lookupEvents, hg]

/-- C2: decoder selection in fromFileEnding.  The extension path.Ext computes
is the suffix starting at the last dot of the final slash-separated element
(empty if there is none).  A parser wired to the JSON loader is constructed
exactly when that extension is .json, one wired to the YAML loader exactly when
it is .yaml or .yml, in both cases for the given path and as the result of
fromFileEnding; for every other extension, the empty one and case variants
such as .JSON included, and only then, fromFileEnding constructs nothing and
returns the unsupported-format error and no parser. -/
theorem C2_decoder_selection {T ε : Type} (W : World T ε) (s : State T) (p : String) :
    path.Ext p = extSpec p ∧
    (∀ (i : Nat) (q : String),
        Event.kongNew i (some (Loader.JSON, q))
            ∈ (fromFileEnding W s p).1.trace.drop s.trace.length
        ↔ (extSpec p = ".json" ∧ i = s.nextId ∧ q = p)) ∧
    (∀ (i : Nat) (q : String),
        Event.kongNew i (some (Loader.YAML, q))
            ∈ (fromFileEnding W s p).1.trace.drop s.trace.length
        ↔ ((extSpec p = ".yaml" ∨ extSpec p = ".yml") ∧ i = s.nextId ∧ q = p)) ∧
    (extSpec p = ".json" →
        fromFileEnding W s p
          = kong.New W (s.log (Event.fromFileEnding p)) (some (Loader.JSON, p))) ∧
    (extSpec p = ".yaml" ∨ extSpec p = ".yml" →
        fromFileEnding W s p
          = kong.New W (s.log (Event.fromFileEnding p)) (some (Loader.YAML, p))) ∧
    ((extSpec p ≠ ".json" ∧ extSpec p ≠ ".yaml" ∧ extSpec p ≠ ".yml")
        ↔ fromFileEnding W s p
            = (s.log (Event.fromFileEnding p),
               Except.error (Error.errorf ("unsupported config format: " ++ p)))) ∧
    fromFileEnding W s "config.JSON"
      = (s.log (Event.fromFileEnding "config.JSON"),
         Except.error (Error.errorf "unsupported config format: config.JSON")) ∧
    fromFileEnding W s "config"
      = (s.log (Event.fromFileEnding "config"),
         Except.error (Error.errorf "unsupported config format: config")) := by
  rw [← Ext_eq_extSpec]
  refine ⟨rfl, ?_, ?_, ?_, ?_, ?_, ?_, ?_⟩
  · intro i q
    by_cases e1 : path.Ext p = ".json"
    · rw [fromFileEnding_json W s p e1]
      cases h : W.newError s.cli (some (Loader.JSON, p)) <;>
        simp [kong.New, State.log, h, e1, eq_comm]
    · by_cases e2 : path.Ext p = ".yaml" ∨ path.Ext p = ".yml"
      · rw [fromFileEnding_yaml W s p e2]
        cases h : W.newError s.cli (some (Loader.YAML, p)) <;>
          simp [kong.New, State.log, h, e1]
      · rw [fromFileEnding_other W s p e1 (fun h => e2 (Or.inl h)) (fun h => e2 (Or.inr h))]
        simp [State.log, e1]
  · intro i q
    by_cases e1 : path.Ext p = ".json"
    · rw [fromFileEnding_json W s p e1]
      cases h : W.newError s.cli (some (Loader.JSON, p)) <;>
        simp [kong.New, State.log, h, e1]
    · by_cases e2 : path.Ext p = ".yaml" ∨ path.Ext p = ".yml"
      · rw [fromFileEnding_yaml W s p e2]
        cases h : W.newError s.cli (some (Loader.YAML, p)) <;>
          simp [kong.New, State.log, h, e2]
      · rw [fromFileEnding_other W s p e1 (fun h => e2 (Or.inl h)) (fun h => e2 (Or.inr h))]
        simp [State.log, e2]
  · exact fromFileEnding_json W s p
  · exact fromFileEnding_yaml W s p
  · constructor
    · rintro ⟨e1, e2, e3⟩
      exact fromFileEnding_other W s p e1 e2 e3
    · intro h
      by_cases e1 : path.Ext p = ".json"
      · rw [fromFileEnding_json W s p e1] at h
        cases h0 : W.newError s.cli (some (Loader.JSON, p)) <;>
          simp [kong.New, State.log, h0] at h
      · by_cases e2 : path.Ext p = ".yaml" ∨ path.Ext p = ".yml"
        · rw [fromFileEnding_yaml W s p e2] at h
          cases h0 : W.newError s.cli (some (Loader.YAML, p)) <;>
            simp [kong.New, State.log, h0] at h
        · exact ⟨e1, fun h => e2 (Or.inl h), fun h => e2 (Or.inr h)⟩
  · exact fromFileEnding_other W s "config.JSON" (by decide) (by decide) (by decide)
  · exact fromFileEnding_other W s "config" (by decide) (by decide) (by decide)

/-- C3: for every resolved config path whose extension is none of .json, .yaml
and .yml, Parse fails with the unsupported-format error, whose message ends
with the path and therefore with the offending extension; for a path with
extension .toml the message ends with .toml.  The premises say that Parse
reached the resolution: the first construction and pass 1 succeeded and the
resolved path is the non-empty `p`. -/
theorem C3_unsupported_format_error {T ε : Type} (W : World T ε) (s : State T)
    (configEnv p : String)
    (h0 : W.newError s.cli none = none)
    (h1 : (W.parse none W.osArgs1 s.cli).2 = none)
    (hres : resolvedPath W (afterPass1 W s.cli) configEnv = p)
    (hp : p ≠ "")
    (e1 : extSpec p ≠ ".json") (e2 : extSpec p ≠ ".yaml") (e3 : extSpec p ≠ ".yml") :
    (Parse W s configEnv).2 = some (Error.errorf ("unsupported config format: " ++ p)) ∧
    (∃ pre : String, "unsupported config format: " ++ p = pre ++ extSpec p) ∧
    (extSpec p = ".toml" →
      ∃ pre : String, "unsupported config format: " ++ p = pre ++ ".toml") := by
  subst hres
  rw [← Ext_eq_extSpec] at e1 e2 e3 ⊢
  have hsuf : ∃ pre : String,
      "unsupported config format: " ++ resolvedPath W (afterPass1 W s.cli) configEnv
        = pre ++ path.Ext (resolvedPath W (afterPass1 W s.cli) configEnv) := by
    obtain ⟨pre, h⟩ := Ext_suffix (resolvedPath W (afterPass1 W s.cli) configEnv)
    refine ⟨"unsupported config format: " ++ pre, ?_⟩
    rw [String.append_assoc, ← h]
  refine ⟨?_, hsuf, ?_⟩
  · rw [Parse_unsupported W s configEnv h0 h1 hp e1 e2 e3]
  · intro h
    rw [h] at hsuf
    exact hsuf

/-- C3 at a concrete input: the command line names settings.toml. -/
theorem C3_unsupported_format_error_witness :
    (Parse (demoWorld ["--config", "settings.toml"] demoEnvUnset) (State.init demoCLI)
        "APP_CONFIG").2
      = some (Error.errorf ("unsupported config format: " ++ "settings.toml")) ∧
    (∃ pre : String, "unsupported config format: " ++ "settings.toml"
        = pre ++ extSpec "settings.toml") ∧
    (extSpec "settings.toml" = ".toml" →
      ∃ pre : String, "unsupported config format: " ++ "settings.toml" = pre ++ ".toml") :=
  C3_unsupported_format_error (demoWorld ["--config", "settings.toml"] demoEnvUnset)
    (State.init demoCLI) "APP_CONFIG" "settings.toml" (by decide) (by decide) (by decide)
    (by decide) (by decide) (by decide) (by decide)

/-- C4: merge semantics of a successful Parse with a resolved config file.
The parser collaborator is held to the merge the specification states for it
(`MergeContract`).  Then after a successful Parse with the non-empty resolved
path `p`, whose extension selects the loader `l`, every field of the target
holds the merged value of the argument vector, the file at `p` decoded by `l`,
and the default: the command-line value if the flag is present, even when the
file holds a value for it, otherwise the value of the file if the file
contains the key, otherwise the declared default. -/
theorem C4_merge_semantics {T ε F V : Type} (W : World T ε) (M : Schema T F V)
    (s : State T) (configEnv p : String)
    (hM : MergeContract W M)
    (hok : (Parse W s configEnv).2 = none)
    (hres : resolvedPath W (afterPass1 W s.cli) configEnv = p)
    (hp : p ≠ "") :
    ∃ l : Loader,
      ((extSpec p = ".json" ∧ l = Loader.JSON)
        ∨ ((extSpec p = ".yaml" ∨ extSpec p = ".yml") ∧ l = Loader.YAML)) ∧
      ∀ f : F,
        M.get (Parse W s configEnv).1.cli f
          = mergedValue (M.cliValue W.osArgs1 f) (M.fileValue l p f) (M.dflt f) ∧
        (∀ v, M.cliValue W.osArgs1 f = some v →
          M.get (Parse W s configEnv).1.cli f = v) ∧
        (M.cliValue W.osArgs1 f = none → ∀ v, M.fileValue l p f = some v →
          M.get (Parse W s configEnv).1.cli f = v) ∧
        (M.cliValue W.osArgs1 f = none → M.fileValue l p f = none →
          M.get (Parse W s configEnv).1.cli f = M.dflt f) := by
  subst hres
  rw [← Ext_eq_extSpec]
  rcases Parse_cases W s configEnv with ⟨e, h0, h⟩ | ⟨e, h0, h1, h⟩ | ⟨h0, h1, hg, hp2, h⟩ |
    ⟨h0, h1, hp2, e1, e2, e3, h⟩ | ⟨l, e, h0, h1, hp2, hl, h2, h⟩ | ⟨l, h0, h1, hp2, hl, h2, h⟩
  · rw [h] at hok
    exact Option.noConfusion hok
  · rw [h] at hok
    exact Option.noConfusion hok
  · exact absurd hp2 hp
  · rw [h] at hok
    exact Option.noConfusion hok
  · rw [h] at hok
    exact Option.noConfusion hok
  · refine ⟨l, hl, ?_⟩
    intro f
    rw [h] at hok ⊢
    have hok2 : (W.parse (some (l, resolvedPath W (afterPass1 W s.cli) configEnv))
        W.osArgs1 (afterPass1 W s.cli)).2 = none := by
      simpa using hok
    have hm := hM _ W.osArgs1 (afterPass1 W s.cli) hok2 f
    simp only [Schema.fileOf] at hm
    simp only
    rw [hm]
    refine ⟨rfl, ?_, ?_, ?_⟩
    · intro v hv
      simp [mergedValue, hv]
    · intro hc v hv
      simp [mergedValue, hc, hv]
    · intro hc hv
      simp [mergedValue, hc, hv]

/-- C4 at a concrete input: the environment variable names a YAML file that
holds port 8080 and the command line gives port 1; the port is 1 and the config
path, absent from both, is the default. -/
theorem C4_merge_semantics_witness :
    (Parse (demoWorld ["--port", "1"] demoEnvYaml) (State.init demoCLI)
        "APP_CONFIG").2 = none ∧
    demoSchema.fileValue Loader.YAML "/etc/app/config.yaml" DemoField.port = some "8080" ∧
    demoSchema.cliValue ["--port", "1"] DemoField.port = some "1" ∧
    (Parse (demoWorld ["--port", "1"] demoEnvYaml) (State.init demoCLI)
        "APP_CONFIG").1.cli = { Config := "", Port := "1" } ∧
    ∃ l : Loader,
      ((extSpec "/etc/app/config.yaml" = ".json" ∧ l = Loader.JSON)
        ∨ ((extSpec "/etc/app/config.yaml" = ".yaml"
            ∨ extSpec "/etc/app/config.yaml" = ".yml") ∧ l = Loader.YAML)) ∧
      ∀ f : DemoField,
        demoSchema.get (Parse (demoWorld ["--port", "1"] demoEnvYaml) (State.init demoCLI)
            "APP_CONFIG").1.cli f
          = mergedValue (demoSchema.cliValue ["--port", "1"] f)
              (demoSchema.fileValue l "/etc/app/config.yaml" f) (demoSchema.dflt f) :=
  ⟨by decide, by decide, by decide, by decide,
   (C4_merge_semantics (demoWorld ["--port", "1"] demoEnvYaml) demoSchema
      (State.init demoCLI) "APP_CONFIG" "/etc/app/config.yaml"
      (demoWorld_merges _ _) (by decide) (by decide) (by decide)).imp
     (fun _ h => ⟨h.1, fun f => (h.2 f).1⟩)⟩

/-- C5: when GetConfigPath is empty after pass 1 and the environment variable
is unset or set to the empty string, Parse enters no decoder selection and
constructs no parser wired to a file.  It returns success exactly when the
construction of the parser and both parses of the argument vector by that
parser succeed; when a parse does not depend on what an earlier parse wrote,
the success of the construction and of pass 1 is enough.  The target is then
the one the parser without a file writes, and under the merge contract every
field holds its command-line value, or the declared default when the flag is
absent. -/
theorem C5_no_config_path {T ε F V : Type} (W : World T ε) (M : Schema T F V)
    (s : State T) (configEnv : String)
    (hg : W.GetConfigPath (afterPass1 W s.cli) = "")
    (henv : W.LookupEnv configEnv = none ∨ W.LookupEnv configEnv = some "") :
    (∀ e ∈ (Parse W s configEnv).1.trace.drop s.trace.length,
        e.isFromFileEnding = false ∧ e.isFileNew = false) ∧
    ((Parse W s configEnv).2 = none ↔
        (W.newError s.cli none = none ∧ (W.parse none W.osArgs1 s.cli).2 = none ∧
          (W.parse none W.osArgs1 (afterPass1 W s.cli)).2 = none)) ∧
    (Overwrites W → W.newError s.cli none = none →
        (W.parse none W.osArgs1 s.cli).2 = none → (Parse W s configEnv).2 = none) ∧
    (W.newError s.cli none = none → (W.parse none W.osArgs1 s.cli).2 = none →
        (Parse W s configEnv).1.cli = (W.parse none W.osArgs1 (afterPass1 W s.cli)).1) ∧
    (MergeContract W M → (Parse W s configEnv).2 = none →
        ∀ f : F, M.get (Parse W s configEnv).1.cli f
          = match M.cliValue W.osArgs1 f with
            | some v => v
            | none => M.dflt f) := by
  have hr : resolvedPath W (afterPass1 W s.cli) configEnv = "" := by
    rw [resolvedPath_eq]
    rcases henv with h | h <;> simp [hg, h]
  have hcases : (∃ e, W.newError s.cli none = some e ∧ Parse W s configEnv
        = ({ cli := s.cli, nextId := s.nextId + 1,
             trace := s.trace ++ [Event.kongNew s.nextId none] }, some (Error.lib e))) ∨
      (∃ e, W.newError s.cli none = none ∧ (W.parse none W.osArgs1 s.cli).2 = some e ∧
        Parse W s configEnv
        = ({ cli := afterPass1 W s.cli, nextId := s.nextId + 1,
             trace := s.trace ++ [Event.kongNew s.nextId none,
                                  Event.kongParse s.nextId W.osArgs1] },
           some (Error.lib e))) ∨
      (W.newError s.cli none = none ∧ (W.parse none W.osArgs1 s.cli).2 = none ∧
        Parse W s configEnv
        = ({ cli := (W.parse none W.osArgs1 (afterPass1 W s.cli)).1, nextId := s.nextId + 1,
             trace := s.trace ++ [Event.kongNew s.nextId none,
                                  Event.kongParse s.nextId W.osArgs1,
                                  Event.lookupEnv configEnv,
                                  Event.kongParse s.nextId W.osArgs1] },
           (W.parse none W.osArgs1 (afterPass1 W s.cli)).2.map Error.lib)) := by
    rcases Parse_cases W s configEnv with ⟨e, h0, h⟩ | ⟨e, h0, h1, h⟩ | ⟨h0, h1, _, _, h⟩ |
      ⟨_, _, hp, _⟩ | ⟨l, e, _, _, hp, _⟩ | ⟨l, _, _, hp, _⟩
    · exact Or.inl ⟨e, h0, h⟩
    · exact Or.inr (Or.inl ⟨e, h0, h1, h⟩)
    · exact Or.inr (Or.inr ⟨h0, h1, h⟩)
    · exact absurd hr hp
    · exact absurd hr hp
    · exact absurd hr hp
  refine ⟨?_, ?_, ?_, ?_, ?_⟩
  · rcases hcases with ⟨e, h0, h⟩ | ⟨e, h0, h1, h⟩ | ⟨h0, h1, h⟩ <;>
      simp [h, Event.isFromFileEnding, Event.isFileNew]
  · rcases hcases with ⟨e, h0, h⟩ | ⟨e, h0, h1, h⟩ | ⟨h0, h1, h⟩
    · simp [h, h0]
    · simp [h, h0, h1]
    · simp [h, h0, h1]
  · intro hO h0 h1
    rcases hcases with ⟨e, h0b, h⟩ | ⟨e, h0b, h1b, h⟩ | ⟨_, _, h⟩
    · rw [h0] at h0b
      exact Option.noConfusion h0b
    · rw [h1] at h1b
      exact Option.noConfusion h1b
    · rw [h]
      have := hO.1 none none W.osArgs1 s.cli
      simp only [afterPass1]
      rw [this, h1]
      rfl
  · intro h0 h1
    rcases hcases with ⟨e, h0b, h⟩ | ⟨e, h0b, h1b, h⟩ | ⟨_, _, h⟩
    · rw [h0] at h0b
      exact Option.noConfusion h0b
    · rw [h1] at h1b
      exact Option.noConfusion h1b
    · rw [h]
  · intro hM hok f
    rcases hcases with ⟨e, h0, h⟩ | ⟨e, h0, h1, h⟩ | ⟨h0, h1, h⟩
    · rw [h] at hok
      exact Option.noConfusion hok
    · rw [h] at hok
      exact Option.noConfusion hok
    · rw [h] at hok ⊢
      have h2 : (W.parse none W.osArgs1 (afterPass1 W s.cli)).2 = none := by
        simpa using hok
      have := hM none W.osArgs1 (afterPass1 W s.cli) h2 f
      simp only
      rw [this]
      simp only [mergedValue, Schema.fileOf]

/-- C5 at a concrete input: a port on the command line, no config path and
an unset environment variable. -/
theorem C5_no_config_path_witness :
    (demoWorld ["--port", "1"] demoEnvUnset).GetConfigPath
        (afterPass1 (demoWorld ["--port", "1"] demoEnvUnset) demoCLI) = "" ∧
    demoEnvUnset "APP_CONFIG" = none ∧
    Parse (demoWorld ["--port", "1"] demoEnvUnset) (State.init demoCLI) "APP_CONFIG"
      = ({ cli := { Config := "", Port := "1" }, nextId := 1,
           trace := [Event.kongNew 0 none, Event.kongParse 0 ["--port", "1"],
                     Event.lookupEnv "APP_CONFIG", Event.kongParse 0 ["--port", "1"]] },
         none) ∧
    ((Parse (demoWorld ["--port", "1"] demoEnvUnset) (State.init demoCLI)
        "APP_CONFIG").2 = none) :=
  ⟨by decide, by decide, by decide,
   (C5_no_config_path (demoWorld ["--port", "1"] demoEnvUnset) demoSchema
      (State.init demoCLI) "APP_CONFIG" (by decide) (Or.inl (by decide))).2.2.1
      (demoWorld_overwrites _ _) (by decide) (by decide)⟩

/-- C6: errors are terminal and the first failure is the one returned.  If
the first construction fails, its error is returned and nothing else was
called.  Otherwise, if pass 1 fails, its error is returned after the
construction and the parse only: no environment lookup, no decoder selection,
no pass 2.  Otherwise, if a config path was resolved and the decoder selection
or the second construction fails, that error is returned and pass 2 is not
run.  Otherwise the outcome of pass 2 is returned.  Parse returns nil exactly
when every step succeeded, and an error exactly when one of them failed. -/
theorem C6_first_failure_returned {T ε : Type} (W : World T ε) (s : State T)
    (configEnv : String) :
    (∀ e, W.newError s.cli none = some e →
      Parse W s configEnv
        = ({ cli := s.cli, nextId := s.nextId + 1,
             trace := s.trace ++ [Event.kongNew s.nextId none] }, some (Error.lib e))) ∧
    (W.newError s.cli none = none → ∀ e, (W.parse none W.osArgs1 s.cli).2 = some e →
      Parse W s configEnv
        = ({ cli := afterPass1 W s.cli, nextId := s.nextId + 1,
             trace := s.trace ++ [Event.kongNew s.nextId none,
                                  Event.kongParse s.nextId W.osArgs1] },
           some (Error.lib e))) ∧
    (W.newError s.cli none = none → (W.parse none W.osArgs1 s.cli).2 = none →
      resolvedPath W (afterPass1 W s.cli) configEnv ≠ "" →
      ∀ e, selection W (afterPass1 W s.cli) (resolvedPath W (afterPass1 W s.cli) configEnv)
            = Except.error e →
        (Parse W s configEnv).2 = some e ∧
        parseIds ((Parse W s configEnv).1.trace.drop s.trace.length) = [s.nextId]) ∧
    (W.newError s.cli none = none → (W.parse none W.osArgs1 s.cli).2 = none →
      ∀ o : Options,
        ((resolvedPath W (afterPass1 W s.cli) configEnv ≠ "" ∧
            selection W (afterPass1 W s.cli) (resolvedPath W (afterPass1 W s.cli) configEnv)
              = Except.ok o)
          ∨ (resolvedPath W (afterPass1 W s.cli) configEnv = "" ∧ o = none)) →
        (Parse W s configEnv).2
          = (W.parse o W.osArgs1 (afterPass1 W s.cli)).2.map Error.lib) ∧
    ((Parse W s configEnv).2 = none ↔
      (W.newError s.cli none = none ∧ (W.parse none W.osArgs1 s.cli).2 = none ∧
        ∃ o : Options,
          ((resolvedPath W (afterPass1 W s.cli) configEnv ≠ "" ∧
              selection W (afterPass1 W s.cli)
                (resolvedPath W (afterPass1 W s.cli) configEnv) = Except.ok o)
            ∨ (resolvedPath W (afterPass1 W s.cli) configEnv = "" ∧ o = none)) ∧
          (W.parse o W.osArgs1 (afterPass1 W s.cli)).2 = none)) ∧
    ((∃ err, (Parse W s configEnv).2 = some err) ↔
      ((∃ e, W.newError s.cli none = some e) ∨
       (∃ e, (W.parse none W.osArgs1 s.cli).2 = some e) ∨
       (resolvedPath W (afterPass1 W s.cli) configEnv ≠ "" ∧
          ∃ e, selection W (afterPass1 W s.cli)
                (resolvedPath W (afterPass1 W s.cli) configEnv) = Except.error e) ∨
       (∃ o : Options,
          ((resolvedPath W (afterPass1 W s.cli) configEnv ≠ "" ∧
              selection W (afterPass1 W s.cli)
                (resolvedPath W (afterPass1 W s.cli) configEnv) = Except.ok o)
            ∨ (resolvedPath W (afterPass1 W s.cli) configEnv = "" ∧ o = none)) ∧
          ∃ e, (W.parse o W.osArgs1 (afterPass1 W s.cli)).2 = some e))) := by
  rcases Parse_cases W s configEnv with ⟨e, h0, h⟩ | ⟨e, h0, h1, h⟩ | ⟨h0, h1, hg, hp, h⟩ |
    ⟨h0, h1, hp, e1, e2, e3, h⟩ | ⟨l, e, h0, h1, hp, hl, h2, h⟩ | ⟨l, h0, h1, hp, hl, h2, h⟩
  · simp [h, h0]
  · simp [h, h0, h1]
  · simp [h, h0, h1, hp, parseIds]
    cases hh : (W.parse none W.osArgs1 (afterPass1 W s.cli)).2 <;> simp
  · have hsel := selection_other W (afterPass1 W s.cli) _ e1 e2 e3
    simp [h, h0, h1, hp, hsel, parseIds]
    by_cases hg : W.GetConfigPath (afterPass1 W s.cli) = "" <;>
      simp [lookupEvents, hg, parseIds]
  · have hsel := selection_loader W (afterPass1 W s.cli) _ l hl
    rw [h2] at hsel
    simp [h, h0, h1, hp, hsel, parseIds]
    by_cases hg : W.GetConfigPath (afterPass1 W s.cli) = "" <;>
      simp [lookupEvents, hg, parseIds]
  · have hsel := selection_loader W (afterPass1 W s.cli) _ l hl
    rw [h2] at hsel
    simp [h, h0, h1, hp, hsel, parseIds]
    cases hh : (W.parse (some (l, resolvedPath W (afterPass1 W s.cli) configEnv))
      W.osArgs1 (afterPass1 W s.cli)).2 <;> simp

/-- C7: idempotence of Parse.  The parser collaborator is held to applying its
values cleanly (`Overwrites`): what an earlier parse of the same argument
vector wrote to the target changes no later outcome.  Then a second call of
Parse on the same target, with the same argument vector, environment and
files, returns what the first call returned, success or the same error, and
leaves the target in the state the first call left it in. -/
theorem C7_idempotent {T ε : Type} (W : World T ε) (s : State T) (configEnv : String)
    (hO : Overwrites W) :
    (Parse W (Parse W s configEnv).1 configEnv).2 = (Parse W s configEnv).2 ∧
    (Parse W (Parse W s configEnv).1 configEnv).1.cli = (Parse W s configEnv).1.cli := by
  have hp1 : ∀ o : Options, W.parse none W.osArgs1 (W.parse o W.osArgs1 (afterPass1 W s.cli)).1
      = W.parse none W.osArgs1 s.cli := by
    intro o
    rw [hO.1 o none W.osArgs1 (afterPass1 W s.cli)]
    exact hO.1 none none W.osArgs1 s.cli
  have hn1 : ∀ o : Options, W.newError (W.parse o W.osArgs1 (afterPass1 W s.cli)).1 none
      = W.newError s.cli none := by
    intro o
    rw [hO.2 o none W.osArgs1 (afterPass1 W s.cli)]
    exact hO.2 none none W.osArgs1 s.cli
  have hp0 : W.parse none W.osArgs1 (afterPass1 W s.cli) = W.parse none W.osArgs1 s.cli :=
    hO.1 none none W.osArgs1 s.cli
  have hn0 : W.newError (afterPass1 W s.cli) none = W.newError s.cli none :=
    hO.2 none none W.osArgs1 s.cli
  rcases Parse_cases W s configEnv with ⟨e, h0, h⟩ | ⟨e, h0, h1, h⟩ | ⟨h0, h1, hg, hp, h⟩ |
    ⟨h0, h1, hp, e1, e2, e3, h⟩ | ⟨l, e, h0, h1, hp, hl, h2, h⟩ | ⟨l, h0, h1, hp, hl, h2, h⟩
  · have h2 := Parse_new_fails W (Parse W s configEnv).1 configEnv e
      (by rw [h]; exact h0)
    rw [h2]
    simp [h]
  · have hc := Parse_congr W s (Parse W s configEnv).1 configEnv
      (by rw [h]; exact hn0) (by rw [h]; exact hp0)
    exact ⟨hc.1, hc.2 h0⟩
  · have hc := Parse_congr W s (Parse W s configEnv).1 configEnv
      (by rw [h]; exact hn1 none) (by rw [h]; exact hp1 none)
    exact ⟨hc.1, hc.2 h0⟩
  · have hc := Parse_congr W s (Parse W s configEnv).1 configEnv
      (by rw [h]; exact hn0) (by rw [h]; exact hp0)
    exact ⟨hc.1, hc.2 h0⟩
  · have hc := Parse_congr W s (Parse W s configEnv).1 configEnv
      (by rw [h]; exact hn0) (by rw [h]; exact hp0)
    exact ⟨hc.1, hc.2 h0⟩
  · have hc := Parse_congr W s (Parse W s configEnv).1 configEnv
      (by rw [h]; exact hn1 _) (by rw [h]; exact hp1 _)
    exact ⟨hc.1, hc.2 h0⟩

/-- C7 at a concrete input: the second call after a successful first call with
a file named by the environment variable. -/
theorem C7_idempotent_witness :
    (Parse (demoWorld ["--port", "1"] demoEnvYaml)
        (Parse (demoWorld ["--port", "1"] demoEnvYaml) (State.init demoCLI) "APP_CONFIG").1
        "APP_CONFIG").2 = none ∧
    (Parse (demoWorld ["--port", "1"] demoEnvYaml)
        (Parse (demoWorld ["--port", "1"] demoEnvYaml) (State.init demoCLI) "APP_CONFIG").1
        "APP_CONFIG").1.cli = { Config := "", Port := "1" } :=
  (C7_idempotent (demoWorld ["--port", "1"] demoEnvYaml) (State.init demoCLI) "APP_CONFIG"
    (demoWorld_overwrites _ _))
/-- C8: resource shape of Parse.  On every invocation at most two parses are
run, every parse is given the vector os.Args[1:], the environment variable is
looked up at most once, and at most one parser wired to a file is constructed;
on every successful invocation exactly two parses are run. -/
theorem C8_resource_shape {T ε : Type} (W : World T ε) (s : State T)
    (configEnv : String) :
    ((Parse W s configEnv).1.trace.drop s.trace.length).countP Event.isParse ≤ 2 ∧
    (∀ (i : Nat) (a : List String),
        Event.kongParse i a ∈ (Parse W s configEnv).1.trace.drop s.trace.length →
        a = W.osArgs1) ∧
    ((Parse W s configEnv).1.trace.drop s.trace.length).countP Event.isLookupEnv ≤ 1 ∧
    ((Parse W s configEnv).1.trace.drop s.trace.length).countP Event.isFileNew ≤ 1 ∧
    ((Parse W s configEnv).2 = none →
      ((Parse W s configEnv).1.trace.drop s.trace.length).countP Event.isParse = 2 ∧
      ∃ i j, ((Parse W s configEnv).1.trace.drop s.trace.length).filter Event.isParse
          = [Event.kongParse i W.osArgs1, Event.kongParse j W.osArgs1]) := by
  rcases Parse_cases W s configEnv with ⟨e, h0, h⟩ | ⟨e, h0, h1, h⟩ | ⟨h0, h1, hg, hp, h⟩ |
    ⟨h0, h1, hp, e1, e2, e3, h⟩ | ⟨l, e, h0, h1, hp, hl, h2, h⟩ | ⟨l, h0, h1, hp, hl, h2, h⟩
  · simp [h, Event.isParse, Event.isLookupEnv, Event.isFileNew]
  · simp [h, Event.isParse, Event.isLookupEnv, Event.isFileNew, List.countP_cons]
  · simp [h, Event.isParse, Event.isLookupEnv, Event.isFileNew, List.countP_cons,
      List.filter_cons]
  · by_cases hg : W.GetConfigPath (afterPass1 W s.cli) = "" <;>
      simp [h, lookupEvents, hg, Event.isParse, Event.isLookupEnv, Event.isFileNew,
        List.countP_cons]
  · by_cases hg : W.GetConfigPath (afterPass1 W s.cli) = "" <;>
      simp [h, lookupEvents, hg, Event.isParse, Event.isLookupEnv, Event.isFileNew,
        List.countP_cons]
  · by_cases hg : W.GetConfigPath (afterPass1 W s.cli) = "" <;>
      simp [h, lookupEvents, hg, Event.isParse, Event.isLookupEnv, Event.isFileNew,
        List.countP_cons, List.filter_cons] <;>
      exact fun i a hh => hh.elim (fun x => x.2) (fun x => x.2)

/-- C9, the claim as stated fails: with no config path on the command line and
the environment variable unset, Parse reaches pass 2 and runs it on the parser
object of pass 1. -/
theorem C9_counterexample :
    ¬ ∀ (W : World DemoCLI String) (s : State DemoCLI) (configEnv : String),
        (parseIds ((Parse W s configEnv).1.trace.drop s.trace.length)).length = 2 →
        secondParserFresh ((Parse W s configEnv).1.trace.drop s.trace.length) = true := by
  intro h
  have h1 := h (demoWorld [] demoEnvUnset) (State.init demoCLI) "APP_CONFIG" (by decide)
  revert h1
  decide

/-- C9, amended: whenever Parse reaches pass 2 with a resolved config path,
pass 2 runs on a second parser object, constructed by fromFileEnding after
pass 1 with the resolved path, for the same target; whenever it reaches pass 2
without a config path, pass 2 runs on the parser object of pass 1. -/
theorem C9_pass2_parser_object {T ε : Type} (W : World T ε) (s : State T)
    (configEnv : String)
    (h2 : (parseIds ((Parse W s configEnv).1.trace.drop s.trace.length)).length = 2) :
    (resolvedPath W (afterPass1 W s.cli) configEnv ≠ "" →
      secondParserFresh ((Parse W s configEnv).1.trace.drop s.trace.length) = true ∧
      parseIds ((Parse W s configEnv).1.trace.drop s.trace.length)
        = [s.nextId, s.nextId + 1] ∧
      ∃ l, afterFirstParse ((Parse W s configEnv).1.trace.drop s.trace.length)
        = lookupEvents W (afterPass1 W s.cli) configEnv
          ++ [Event.fromFileEnding (resolvedPath W (afterPass1 W s.cli) configEnv),
              Event.kongNew (s.nextId + 1)
                (some (l, resolvedPath W (afterPass1 W s.cli) configEnv)),
              Event.kongParse (s.nextId + 1) W.osArgs1]) ∧
    (resolvedPath W (afterPass1 W s.cli) configEnv = "" →
      secondParserFresh ((Parse W s configEnv).1.trace.drop s.trace.length) = false ∧
      parseIds ((Parse W s configEnv).1.trace.drop s.trace.length)
        = [s.nextId, s.nextId] ∧
      afterFirstParse ((Parse W s configEnv).1.trace.drop s.trace.length)
        = [Event.lookupEnv configEnv, Event.kongParse s.nextId W.osArgs1]) := by
  rcases Parse_cases W s configEnv with ⟨e, h0, h⟩ | ⟨e, h0, h1, h⟩ | ⟨h0, h1, hg, hp, h⟩ |
    ⟨h0, h1, hp, e1, e2, e3, h⟩ | ⟨l, e, h0, h1, hp, hl, h3, h⟩ | ⟨l, h0, h1, hp, hl, h3, h⟩
  · simp [h, parseIds] at h2
  · simp [h, parseIds] at h2
  · simp [h, hp, parseIds, afterFirstParse, secondParserFresh]
  · by_cases hg : W.GetConfigPath (afterPass1 W s.cli) = "" <;>
      simp [h, lookupEvents, hg, parseIds] at h2
  · by_cases hg : W.GetConfigPath (afterPass1 W s.cli) = "" <;>
      simp [h, lookupEvents, hg, parseIds] at h2
  · by_cases hg : W.GetConfigPath (afterPass1 W s.cli) = "" <;>
      simp [h, hp, lookupEvents, hg, parseIds, afterFirstParse, secondParserFresh]

/-- C9 amended, at a concrete input: the environment variable names the YAML
file, and pass 2 runs on the second parser object. -/
theorem C9_pass2_parser_object_witness :
    (parseIds ((Parse (demoWorld [] demoEnvYaml) (State.init demoCLI)
        "APP_CONFIG").1.trace.drop 0)).length = 2 ∧
    parseIds ((Parse (demoWorld [] demoEnvYaml) (State.init demoCLI)
        "APP_CONFIG").1.trace.drop 0) = [0, 1] :=
  ⟨by decide,
   ((C9_pass2_parser_object (demoWorld [] demoEnvYaml) (State.init demoCLI) "APP_CONFIG"
      (by decide)).1 (by decide)).2.1⟩

/-- C10: no fallback on a bad command-line path.  When GetConfigPath is
non-empty after pass 1 and its extension is not supported, Parse fails with the
unsupported-format error for that path whatever the environment variable
holds: the variable is not looked up, pass 2 is not run, and the only calls
are the first construction, pass 1 and the entry into the decoder selection. -/
theorem C10_no_fallback_on_bad_cli_path {T ε : Type} (W : World T ε) (s : State T)
    (configEnv : String)
    (h0 : W.newError s.cli none = none)
    (h1 : (W.parse none W.osArgs1 s.cli).2 = none)
    (hg : W.GetConfigPath (afterPass1 W s.cli) ≠ "")
    (e1 : extSpec (W.GetConfigPath (afterPass1 W s.cli)) ≠ ".json")
    (e2 : extSpec (W.GetConfigPath (afterPass1 W s.cli)) ≠ ".yaml")
    (e3 : extSpec (W.GetConfigPath (afterPass1 W s.cli)) ≠ ".yml") :
    Parse W s configEnv
      = ({ cli := afterPass1 W s.cli, nextId := s.nextId + 1,
           trace := s.trace ++ [Event.kongNew s.nextId none,
                                Event.kongParse s.nextId W.osArgs1,
                                Event.fromFileEnding (W.GetConfigPath (afterPass1 W s.cli))] },
         some (Error.errorf ("unsupported config format: "
            ++ W.GetConfigPath (afterPass1 W s.cli)))) ∧
    (∀ k : String,
      Event.lookupEnv k ∉ (Parse W s configEnv).1.trace.drop s.trace.length) ∧
    parseIds ((Parse W s configEnv).1.trace.drop s.trace.length) = [s.nextId] := by
  have hr : resolvedPath W (afterPass1 W s.cli) configEnv
      = W.GetConfigPath (afterPass1 W s.cli) := by
    rw [resolvedPath_eq]
    simp [hg]
  rw [← Ext_eq_extSpec] at e1 e2 e3
  have hP := Parse_unsupported W s configEnv h0 h1 (by rw [hr]; exact hg)
    (by rw [hr]; exact e1) (by rw [hr]; exact e2) (by rw [hr]; exact e3)
  rw [hr] at hP
  simp only [lookupEvents, hg, if_false, List.append_nil, List.cons_append,
    List.nil_append] at hP
  rw [hP]
  refine ⟨rfl, ?_, ?_⟩
  · intro k
    simp
  · simp [parseIds]

/-- C10 at a concrete input: the command line names settings.toml while the
environment variable names a YAML file. -/
theorem C10_no_fallback_on_bad_cli_path_witness :
    demoEnvYaml "APP_CONFIG" = some "/etc/app/config.yaml" ∧
    extSpec "/etc/app/config.yaml" = ".yaml" ∧
    Parse (demoWorld ["--config", "settings.toml"] demoEnvYaml) (State.init demoCLI)
        "APP_CONFIG"
      = ({ cli := { Config := "settings.toml", Port := "80" }, nextId := 1,
           trace := [Event.kongNew 0 none,
                     Event.kongParse 0 ["--config", "settings.toml"],
                     Event.fromFileEnding "settings.toml"] },
         some (Error.errorf "unsupported config format: settings.toml")) :=
  ⟨by decide, by decide,
   (C10_no_fallback_on_bad_cli_path (demoWorld ["--config", "settings.toml"] demoEnvYaml)
      (State.init demoCLI) "APP_CONFIG" (by decide) (by decide) (by decide) (by decide)
      (by decide) (by decide)).1⟩

end kongWrapper
